import Mathlib

/-!
# Verification of the account-management API against its specification

Shallow embedding of the repository's two request-handling variants:

* `SingleFile` — the validating variant in `src/app.py` (validation layer,
  sanitization, `db.session.rollback()` in the generic `except` blocks);
* `Blueprint` — the blueprint variant in `src/app/routes.py` together with
  `src/app/models.py` (no validation layer, no sanitization, and no
  `rollback()` call in its `except` blocks).

The relational store (SQLite via SQLAlchemy) is modelled explicitly: the
`account` table is a list of rows plus an auto-increment counter, and the
schema's `UNIQUE` constraint on `email` (declared in both
`src/app.py::Account` and `src/app/models.py::Account` as
`db.Column(..., unique=True, ...)`) is enforced at commit time: a commit
whose resulting table would contain two rows with the same email raises
`IntegrityError`, which the handlers catch in their generic `except` blocks.
An injected `fault : Bool` flag models an arbitrary store-layer failure at
commit time (connection loss etc.); when it is set the commit raises.

Request payloads are modelled as JSON objects restricted to the shapes the
handlers distinguish: the `name` value is a string or a non-string scalar
(`NameVal.num`, standing for any value without a `.strip()` method), the
`email` value is a string, the `phone` value is a string or JSON `null`,
and `extra` records the unknown keys of the object.  Timestamps are
abstracted to a `Nat` clock (`DbState.now`), which is all the claims need
of `datetime.utcnow`.
-/

/-- Characters allowed in the local part of the email regex in
`src/app.py::validate_email`: the class `[a-zA-Z0-9._%+-]`. -/
def isLocalChar (c : Char) : Bool :=
  c.isAlpha || c.isDigit || c = '.' || c = '_' || c = '%' || c = '+' || c = '-'

/-- Characters allowed in the domain part of the email regex: the class
`[a-zA-Z0-9.-]`. -/
def isDomainChar (c : Char) : Bool :=
  c.isAlpha || c.isDigit || c = '.' || c = '-'

/-- The tail `[a-zA-Z]{2,}$` of the regex: at least two letters running to
the match end. -/
def matchTld (t : List Char) : Bool :=
  2 ≤ t.length && t.all (·.isAlpha)

/-- Matcher for the regex fragment `[a-zA-Z0-9.-]+\.[a-zA-Z]{2,}$` after at
least one domain character has been consumed: either the next character is
the literal dot followed by the tld, or it is a further domain character.
Both alternatives are tried (`||`), which reproduces the backtracking
search of the regex engine. -/
def matchDomainRest : List Char → Bool
  | [] => false
  | c :: cs => (c = '.' && matchTld cs) || (isDomainChar c && matchDomainRest cs)

/-- Matcher for `[a-zA-Z0-9.-]+\.[a-zA-Z]{2,}$`: one domain character, then
`matchDomainRest`. -/
def matchDomain : List Char → Bool
  | [] => false
  | c :: cs => isDomainChar c && matchDomainRest cs

/-- Matcher for the part after the first local character: local characters
up to the first `@`, then the domain part.  Since `@` is not a local
character, the regex `[a-zA-Z0-9._%+-]+@` can only split the string at its
first `@`. -/
def matchLocalRest : List Char → Bool
  | [] => false
  | c :: cs => if c = '@' then matchDomain cs else isLocalChar c && matchLocalRest cs

/-- Matcher for the full anchored pattern
`^[a-zA-Z0-9._%+-]+@[a-zA-Z0-9.-]+\.[a-zA-Z]{2,}$` applied at the start of
the character list (the semantics of `re.match`). -/
def matchCore : List Char → Bool
  | [] => false
  | c :: cs => isLocalChar c && matchLocalRest cs

/-- `src/app.py::validate_email`:

    pattern = r'^[a-zA-Z0-9._%+-]+@[a-zA-Z0-9.-]+\.[a-zA-Z]{2,}$'
    return re.match(pattern, email) is not None

In Python's `re` (without `re.MULTILINE`), `$` matches at the end of the
string *or just before a newline at the end of the string*.  The `{2,}`
letters can never end on the newline itself, so the call matches exactly
when the whole string matches the pattern, or the whole string minus one
trailing `'\n'` does.  That disjunction is encoded here by stripping one
trailing newline before running the anchored matcher. -/
def validate_email (email : String) : Bool :=
  match email.data.getLast? with
  | none => false
  | some c => if c = '\n' then matchCore email.data.dropLast else matchCore email.data

/-- Expansion of one character under
`src/app.py::sanitize_input`: `<` ↦ `&lt;`, `>` ↦ `&gt;`, `"` ↦ `&quot;`. -/
def sanitizeChar (c : Char) : List Char :=
  if c = '<' then ['&', 'l', 't', ';']
  else if c = '>' then ['&', 'g', 't', ';']
  else if c = '"' then ['&', 'q', 'u', 'o', 't', ';'] else [c]

/-- `src/app.py::sanitize_input` on a string value:
`data.replace('<','&lt;').replace('>','&gt;').replace('"','&quot;')`.
The three sequential `replace` calls are equivalent to a single pass that
expands each character independently, because the replacement texts contain
none of the patterns of the later `replace` calls (no `>` or `"` occurs in
`&lt;`, and no `"` occurs in `&gt;`). -/
def sanitize (s : String) : String :=
  ⟨(s.data.map sanitizeChar).flatten⟩

/-- Python's `str.strip()` (as used in `validate_account_data`): drop
whitespace from both ends. -/
def pyStrip (s : String) : List Char :=
  ((s.data.dropWhile Char.isWhitespace).reverse.dropWhile Char.isWhitespace).reverse

/-- A JSON value appearing under the `name` key of a request body: either a
string, or a non-string scalar (`num`, standing for any Python value with
no `.strip()` method, e.g. a number). -/
inductive NameVal where
  | str (s : String)
  | num (n : Int)
deriving DecidableEq

/-- A request body (JSON object), restricted to the shapes the handlers
distinguish: optional `name`, `email` (a string when present), `phone`
(a string or JSON `null` when present), and the list of unknown keys. -/
structure Payload where
  name : Option NameVal := none
  email : Option String := none
  phone : Option (Option String) := none
  extra : List String := []
deriving DecidableEq

/-- Python truthiness of the parsed body: a dict is falsy iff it has no
keys at all. -/
def Payload.isEmpty (p : Payload) : Bool :=
  p.name.isNone && p.email.isNone && p.phone.isNone && p.extra.isEmpty

/-- A row of the `account` table (`src/app.py::Account`,
`src/app/models.py::Account`): integer primary key, `name`, unique
`email`, nullable `phone`, creation timestamp `date_joined`. The `name`
column holds whatever value `from_dict` assigned (a `NameVal`, since the
blueprint variant stores unvalidated values). -/
structure Account where
  id : Nat
  name : NameVal
  email : String
  phone : Option String
  date_joined : Nat
deriving DecidableEq

/-- The persisted store: the rows of the `account` table, the
auto-increment counter for the next primary key, and the current clock
used for `date_joined` defaults. -/
structure DbState where
  rows : List Account
  nextId : Nat
  now : Nat
deriving DecidableEq

/-- A JSON response body, as shaped by the handlers. -/
inductive Body where
  | account (a : Account)
  | accounts (l : List Account)
  | error (msg : String)
  | message (msg : String)
deriving DecidableEq

/-- An HTTP response: status code and JSON body. -/
structure Response where
  status : Nat
  body : Body
deriving DecidableEq

/-- State of the SQLAlchemy session after a request: `clean` when no failed
transaction is pending (either nothing failed or `db.session.rollback()`
was called), `pendingRollback` when a commit failed and the handler
returned without rolling back. -/
inductive Session where
  | clean
  | pendingRollback
deriving DecidableEq

/-- `db.session.get(Account, i)` / `Account.query.get(i)`: primary-key
lookup, modelled as first row with the given id. -/
def getRow (rows : List Account) (i : Nat) : Option Account :=
  rows.find? (fun r => r.id == i)

/-- Replace the first row with the given id (the row object returned by the
primary-key lookup is mutated in place and flushed on commit). -/
def setRow : List Account → Nat → Account → List Account
  | [], _, _ => []
  | r :: rs, i, a => if r.id == i then a :: rs else r :: setRow rs i a

/-- Remove the first row with the given id (`db.session.delete` of the row
returned by the primary-key lookup). -/
def removeRow : List Account → Nat → List Account
  | [], _ => []
  | r :: rs, i => if r.id == i then rs else r :: removeRow rs i

/-- Whether two rows of the table share an `email` value — the condition
under which the schema's `UNIQUE` constraint on the `email` column makes a
commit of this table raise `IntegrityError`. -/
def hasDupEmail : List Account → Bool
  | [] => false
  | a :: rs => rs.any (fun b => b.email == a.email) || hasDupEmail rs

/-- No two rows share an `email` value (the invariant form). -/
def emailsUnique (rows : List Account) : Prop :=
  List.Pairwise (fun a b => a.email ≠ b.email) rows

instance : DecidablePred emailsUnique := fun rows =>
  List.instDecidablePairwise rows

/-- Outcome of `src/app.py::validate_account_data`: passes, raises
`BadRequest msg`, or raises a non-`BadRequest` Python exception (modelled
by `crash`, carrying `str(e)`). -/
inductive Validation where
  | ok
  | bad (msg : String)
  | crash (msg : String)
deriving DecidableEq

/-- The name check inside `validate_account_data`:

    if 'name' in data and len(data['name'].strip()) < 2:
        raise BadRequest("Name must be at least 2 characters long")

A non-string `name` value has no `.strip()` method, so the check raises
`AttributeError` instead of `BadRequest`. -/
def checkName (p : Payload) : Validation :=
  match p.name with
  | some (.str s) =>
      if (pyStrip s).length < 2 then .bad "Name must be at least 2 characters long" else .ok
  | some (.num _) => .crash "'int' object has no attribute 'strip'"
  | none => .ok

/-- `src/app.py::validate_account_data`: reject a falsy body, then an
invalid email format (checked first), then a too-short name. -/
def validate_account_data : Option Payload → Validation
  | none => .bad "No data provided"
  | some p =>
      if p.isEmpty then .bad "No data provided"
      else
        match p.email with
        | some e => if !validate_email e then .bad "Invalid email format" else checkName p
        | none => checkName p

namespace SingleFile

/-- `src/app.py::Account.from_dict`: for each of `name`, `email`, `phone`
present in the body, sanitize string values and assign the field; `id` and
`date_joined` are never touched. -/
def from_dict (a : Account) (p : Payload) : Account :=
  { a with
    name := match p.name with
      | some (.str s) => .str (sanitize s)
      | some (.num n) => .num n
      | none => a.name
    email := match p.email with
      | some e => sanitize e
      | none => a.email
    phone := match p.phone with
      | some v => v.map sanitize
      | none => a.phone }

/-- `src/app.py::create_account` (POST `/api/v1/accounts`): validate, check
required fields, check for an existing row with the same email (409),
otherwise build the row via `from_dict`, `db.session.add`, and commit.  A
commit failure (`IntegrityError` from the UNIQUE constraint, or an injected
store fault) is caught by the generic `except`, which calls
`db.session.rollback()` and returns 500. -/
def create_account (st : DbState) (fault : Bool) (body : Option Payload) :
    Response × DbState × Session :=
  match validate_account_data body with
  | .bad m => (⟨400, .error m⟩, st, .clean)
  | .crash m => (⟨500, .error m⟩, st, .clean)
  | .ok =>
    match body with
    | none => (⟨400, .error "Name and email are required"⟩, st, .clean)
    | some p =>
      if p.name.isNone || p.email.isNone then
        (⟨400, .error "Name and email are required"⟩, st, .clean)
      else
        let e := p.email.getD ""
        if (st.rows.find? (fun a => a.email == e)).isSome then
          (⟨409, .error "Email already exists"⟩, st, .clean)
        else
          let acct := from_dict ⟨st.nextId, .str "", "", none, st.now⟩ p
          let rows' := st.rows ++ [acct]
          if fault || hasDupEmail rows' then
            (⟨500, .error "(sqlite3.IntegrityError) commit failed"⟩, st, .clean)
          else
            (⟨201, .account acct⟩, ⟨rows', st.nextId + 1, st.now⟩, .clean)

/-- `src/app.py::get_account` (GET `/api/v1/accounts/<id>`). -/
def get_account (st : DbState) (i : Nat) : Response :=
  match getRow st.rows i with
  | none => ⟨404, .error "Account not found"⟩
  | some a => ⟨200, .account a⟩

/-- `src/app.py::update_account` (PUT `/api/v1/accounts/<id>`): resolve the
id first (404 before the body is even parsed), then validate the body,
apply `from_dict` to the fetched row, and commit; a commit failure rolls
back and returns 500. -/
def update_account (st : DbState) (i : Nat) (fault : Bool) (body : Option Payload) :
    Response × DbState × Session :=
  match getRow st.rows i with
  | none => (⟨404, .error "Account not found"⟩, st, .clean)
  | some a =>
    match validate_account_data body with
    | .bad m => (⟨400, .error m⟩, st, .clean)
    | .crash m => (⟨500, .error m⟩, st, .clean)
    | .ok =>
      let a' := from_dict a (body.getD {})
      let rows' := setRow st.rows i a'
      if fault || hasDupEmail rows' then
        (⟨500, .error "(sqlite3.IntegrityError) commit failed"⟩, st, .clean)
      else
        (⟨200, .account a'⟩, ⟨rows', st.nextId, st.now⟩, .clean)

/-- `src/app.py::delete_account` (DELETE `/api/v1/accounts/<id>`): resolve
the id (404 if absent), delete the row, commit.  Deleting a row cannot
violate the UNIQUE constraint, so the commit fails only on an injected
store fault; that failure rolls back and returns 500. -/
def delete_account (st : DbState) (i : Nat) (fault : Bool) :
    Response × DbState × Session :=
  match getRow st.rows i with
  | none => (⟨404, .error "Account not found"⟩, st, .clean)
  | some _ =>
    if fault then (⟨500, .error "commit failed"⟩, st, .clean)
    else
      (⟨200, .message "Account deleted successfully"⟩,
        ⟨removeRow st.rows i, st.nextId, st.now⟩, .clean)

end SingleFile

namespace Blueprint

/-- `src/app/models.py::Account.from_dict`: assign each of `name`, `email`,
`phone` present in the body verbatim (no sanitization); `id` and
`date_joined` are never touched. -/
def from_dict (a : Account) (p : Payload) : Account :=
  { a with
    name := p.name.getD a.name
    email := p.email.getD a.email
    phone := match p.phone with
      | some v => v
      | none => a.phone }

/-- `src/app/routes.py::create_account`: no validation layer; required-field
check, duplicate-email check (409), then insert and commit.  Its generic
`except` block returns 500 *without* calling `db.session.rollback()`, so a
commit failure leaves the session with the failed transaction pending. -/
def create_account (st : DbState) (fault : Bool) (body : Option Payload) :
    Response × DbState × Session :=
  match body with
  | none => (⟨400, .error "Name and email are required"⟩, st, .clean)
  | some p =>
    if p.isEmpty || p.name.isNone || p.email.isNone then
      (⟨400, .error "Name and email are required"⟩, st, .clean)
    else
      let e := p.email.getD ""
      if (st.rows.find? (fun a => a.email == e)).isSome then
        (⟨409, .error "Email already exists"⟩, st, .clean)
      else
        let acct := from_dict ⟨st.nextId, .str "", "", none, st.now⟩ p
        let rows' := st.rows ++ [acct]
        if fault || hasDupEmail rows' then
          (⟨500, .error "(sqlite3.IntegrityError) commit failed"⟩, st, .pendingRollback)
        else
          (⟨201, .account acct⟩, ⟨rows', st.nextId + 1, st.now⟩, .clean)

/-- `src/app/routes.py::get_account`. -/
def get_account (st : DbState) (i : Nat) : Response :=
  match getRow st.rows i with
  | none => ⟨404, .error "Account not found"⟩
  | some a => ⟨200, .account a⟩

/-- `src/app/routes.py::update_account`: resolve the id first (404 before
the body is parsed), reject a falsy body with 400 "No data provided",
apply `from_dict`, commit; a commit failure returns 500 without rollback. -/
def update_account (st : DbState) (i : Nat) (fault : Bool) (body : Option Payload) :
    Response × DbState × Session :=
  match getRow st.rows i with
  | none => (⟨404, .error "Account not found"⟩, st, .clean)
  | some a =>
    match body with
    | none => (⟨400, .error "No data provided"⟩, st, .clean)
    | some p =>
      if p.isEmpty then (⟨400, .error "No data provided"⟩, st, .clean)
      else
        let a' := from_dict a p
        let rows' := setRow st.rows i a'
        if fault || hasDupEmail rows' then
          (⟨500, .error "(sqlite3.IntegrityError) commit failed"⟩, st, .pendingRollback)
        else
          (⟨200, .account a'⟩, ⟨rows', st.nextId, st.now⟩, .clean)

/-- `src/app/routes.py::delete_account`: resolve the id (404 if absent),
delete, commit; a commit failure returns 500 without rollback. -/
def delete_account (st : DbState) (i : Nat) (fault : Bool) :
    Response × DbState × Session :=
  match getRow st.rows i with
  | none => (⟨404, .error "Account not found"⟩, st, .clean)
  | some _ =>
    if fault then (⟨500, .error "commit failed"⟩, st, .pendingRollback)
    else
      (⟨200, .message "Account deleted successfully"⟩,
        ⟨removeRow st.rows i, st.nextId, st.now⟩, .clean)

end Blueprint

/-- A mutating operation against the validating variant (`src/app.py`),
with its injected commit-fault flag and request body. -/
inductive Op where
  | create (fault : Bool) (body : Option Payload)
  | update (i : Nat) (fault : Bool) (body : Option Payload)
  | delete (i : Nat) (fault : Bool)

/-- Whether an operation is a create. -/
def Op.isCreate : Op → Bool
  | .create _ _ => true
  | _ => false

/-- The store state after one operation of the validating variant. -/
def applyOp (st : DbState) : Op → DbState
  | .create fault body => (SingleFile.create_account st fault body).2.1
  | .update i fault body => (SingleFile.update_account st i fault body).2.1
  | .delete i fault => (SingleFile.delete_account st i fault).2.1

/-- The store state after a sequence of operations. -/
def runOps (st : DbState) : List Op → DbState
  | [] => st
  | op :: ops => runOps (applyOp st op) ops

/-- A concrete one-row store used to instantiate theorems. -/
def wSt : DbState := ⟨[⟨1, .str "John Doe", "john@example.com", none, 0⟩], 2, 7⟩

/-- The row stored in `wSt`. -/
def wAcct : Account := ⟨1, .str "John Doe", "john@example.com", none, 0⟩

/-- A concrete partial-update payload: sets `phone`, carries one unknown
key, leaves `name` and `email` absent. -/
def wPay : Payload := ⟨none, none, some (some "555"), ["bogus"]⟩

/-! ## Helper lemmas about the store primitives -/

/-- `hasDupEmail` is the boolean negation of the email-uniqueness invariant. -/
theorem hasDupEmail_eq_false_iff (rows : List Account) :
    hasDupEmail rows = false ↔ emailsUnique rows := by
  induction rows with
  | nil => simp [hasDupEmail, emailsUnique]
  | cons a rs ih =>
    simp only [hasDupEmail, Bool.or_eq_false_iff, List.any_eq_false, beq_iff_eq,
      emailsUnique, List.pairwise_cons] at *
    constructor
    · rintro ⟨h1, h2⟩
      exact ⟨fun b hb => fun hab => h1 b hb hab.symm, ih.mp h2⟩
    · rintro ⟨h1, h2⟩
      exact ⟨fun b hb hba => h1 b hb hba.symm, ih.mpr h2⟩

/-- `removeRow` yields a sublist of the table. -/
theorem removeRow_sublist (rows : List Account) (i : Nat) :
    List.Sublist (removeRow rows i) rows := by
  induction rows with
  | nil => simp [removeRow]
  | cons r rs ih =>
    simp only [removeRow]
    split
    · exact List.sublist_cons_self r rs
    · exact List.Sublist.cons₂ r ih

/-- Removing a row preserves email uniqueness. -/
theorem emailsUnique_removeRow {rows : List Account} (i : Nat)
    (h : emailsUnique rows) : emailsUnique (removeRow rows i) :=
  List.Pairwise.sublist (removeRow_sublist rows i) h

/-- Members of `setRow rows i a` come from `rows` or are `a` itself. -/
theorem mem_setRow {rows : List Account} {i : Nat} {a x : Account}
    (h : x ∈ setRow rows i a) : x ∈ rows ∨ x = a := by
  induction rows with
  | nil => simp [setRow] at h
  | cons r rs ih =>
    simp only [setRow] at h
    split at h
    · rcases List.mem_cons.mp h with h | h
      · exact .inr h
      · exact .inl (List.mem_cons_of_mem r h)
    · rcases List.mem_cons.mp h with h | h
      · exact .inl (h ▸ List.mem_cons_self r rs)
      · rcases ih h with h | h
        · exact .inl (List.mem_cons_of_mem r h)
        · exact .inr h

/-- A found row has the id it was searched by. -/
theorem getRow_id {rows : List Account} {i : Nat} {a : Account}
    (h : getRow rows i = some a) : a.id = i := by
  have := List.find?_some h
  simpa using this

/-- A found row is in the table. -/
theorem getRow_mem {rows : List Account} {i : Nat} {a : Account}
    (h : getRow rows i = some a) : a ∈ rows :=
  List.mem_of_find?_eq_some h

/-- `getRow` finds nothing iff no row has the id. -/
theorem getRow_eq_none_iff {rows : List Account} {i : Nat} :
    getRow rows i = none ↔ ∀ r ∈ rows, r.id ≠ i := by
  simp [getRow, List.find?_eq_none]

/-- Writing back the row that the lookup returned leaves the table
unchanged. -/
theorem setRow_self {rows : List Account} {i : Nat} {a : Account}
    (h : getRow rows i = some a) : setRow rows i a = rows := by
  induction rows with
  | nil => simp [getRow] at h
  | cons r rs ih =>
    simp only [getRow, List.find?_cons] at h
    simp only [setRow]
    split
    · rename_i hid
      rw [hid] at h
      simp at h
      rw [h]
    · rename_i hid
      rw [Bool.not_eq_true] at hid
      rw [hid] at h
      rw [ih h]

/-- After replacing the looked-up row with a row of the same id, the lookup
returns the replacement. -/
theorem getRow_setRow {rows : List Account} {i : Nat} {a a' : Account}
    (h : getRow rows i = some a) (hid : a'.id = i) :
    getRow (setRow rows i a') i = some a' := by
  induction rows with
  | nil => simp [getRow] at h
  | cons r rs ih =>
    simp only [getRow, List.find?_cons] at h ⊢
    simp only [setRow]
    split
    · rename_i hr
      simp [getRow, List.find?_cons, hid]
    · rename_i hr
      rw [Bool.not_eq_true] at hr
      rw [hr] at h
      simpa [getRow, List.find?_cons, hr] using ih h

/-- Removing the (unique) row with a given id makes the lookup fail: holds
whenever the table's primary keys are pairwise distinct, which the `id`
column's `PRIMARY KEY` constraint guarantees. -/
theorem getRow_removeRow {rows : List Account} {i : Nat}
    (hpk : List.Pairwise (fun x y => x.id ≠ y.id) rows) :
    getRow (removeRow rows i) i = none := by
  induction rows with
  | nil => simp [removeRow, getRow]
  | cons r rs ih =>
    rcases List.pairwise_cons.mp hpk with ⟨h1, h2⟩
    simp only [removeRow]
    split
    · rename_i hr
      rw [beq_iff_eq] at hr
      rw [getRow_eq_none_iff]
      intro x hx hxi
      exact h1 x hx (by rw [hr, hxi])
    · rename_i hr
      simpa [getRow, List.find?_cons, hr] using ih h2

/-- `find?` skips over a prefix in which nothing matches. -/
theorem find?_append_of_none {l₁ l₂ : List Account} {p : Account → Bool}
    (h : l₁.find? p = none) : (l₁ ++ l₂).find? p = l₂.find? p := by
  induction l₁ with
  | nil => simp
  | cons x xs ih =>
    simp only [List.find?_cons] at h ⊢
    split at h
    · simp at h
    · rename_i hx
      simp only [List.cons_append, List.find?_cons]
      split
      · rename_i hx'
        exact absurd hx' (by simpa using hx)
      · exact ih h

/-! ## The email pattern, as the specification words it

The specification describes the accepted format as: `local@domain.tld`
where local is one-or-more of `[A-Za-z0-9._%+-]`, domain is one-or-more of
`[A-Za-z0-9.-]`, and tld is two-or-more letters. -/

/-- The specification's email shape: some decomposition of the character
list as `local ++ "@" ++ domain ++ "." ++ tld` with the three parts drawn
from the stated character classes. -/
def specEmailForm (cs : List Char) : Prop :=
  ∃ l d t, cs = l ++ '@' :: (d ++ '.' :: t) ∧ l ≠ [] ∧ (∀ c ∈ l, isLocalChar c = true)
    ∧ d ≠ [] ∧ (∀ c ∈ d, isDomainChar c = true) ∧ 2 ≤ t.length ∧ (∀ c ∈ t, c.isAlpha = true)

theorem matchTld_iff (t : List Char) :
    matchTld t = true ↔ 2 ≤ t.length ∧ ∀ c ∈ t, c.isAlpha = true := by
  simp [matchTld, List.all_eq_true]

theorem matchDomainRest_iff (cs : List Char) :
    matchDomainRest cs = true ↔
      ∃ d t, cs = d ++ '.' :: t ∧ (∀ c ∈ d, isDomainChar c = true)
        ∧ 2 ≤ t.length ∧ (∀ c ∈ t, c.isAlpha = true) := by
  induction cs with
  | nil =>
    simp only [matchDomainRest, Bool.false_eq_true, false_iff]
    rintro ⟨d, t, heq, -⟩
    exact absurd heq.symm (by simp)
  | cons c cs ih =>
    simp only [matchDomainRest, Bool.or_eq_true, Bool.and_eq_true, decide_eq_true_eq]
    constructor
    · rintro (⟨hc, htld⟩ | ⟨hdc, hrest⟩)
      · rcases (matchTld_iff cs).mp htld with ⟨hlen, halpha⟩
        exact ⟨[], cs, by rw [hc]; rfl, by simp, hlen, halpha⟩
      · rcases ih.mp hrest with ⟨d, t, heq, hd, hlen, ht⟩
        refine ⟨c :: d, t, by rw [heq]; rfl, ?_, hlen, ht⟩
        intro x hx
        rcases List.mem_cons.mp hx with h | h
        · exact h ▸ hdc
        · exact hd x h
    · rintro ⟨d, t, heq, hd, hlen, ht⟩
      cases d with
      | nil =>
        simp only [List.nil_append, List.cons.injEq] at heq
        refine .inl ⟨heq.1, ?_⟩
        rw [heq.2]
        exact (matchTld_iff t).mpr ⟨hlen, ht⟩
      | cons d0 d' =>
        simp only [List.cons_append, List.cons.injEq] at heq
        refine .inr ⟨heq.1 ▸ hd d0 (List.mem_cons_self d0 d'), ?_⟩
        exact ih.mpr ⟨d', t, heq.2, fun x hx => hd x (List.mem_cons_of_mem d0 hx), hlen, ht⟩

theorem matchDomain_iff (cs : List Char) :
    matchDomain cs = true ↔
      ∃ d t, cs = d ++ '.' :: t ∧ d ≠ [] ∧ (∀ c ∈ d, isDomainChar c = true)
        ∧ 2 ≤ t.length ∧ (∀ c ∈ t, c.isAlpha = true) := by
  cases cs with
  | nil =>
    simp only [matchDomain, Bool.false_eq_true, false_iff]
    rintro ⟨d, t, heq, -⟩
    exact absurd heq.symm (by simp)
  | cons c cs =>
    simp only [matchDomain, Bool.and_eq_true]
    rw [matchDomainRest_iff]
    constructor
    · rintro ⟨hc, d, t, heq, hd, hlen, ht⟩
      refine ⟨c :: d, t, by rw [heq]; rfl, by simp, ?_, hlen, ht⟩
      intro x hx
      rcases List.mem_cons.mp hx with h | h
      · exact h ▸ hc
      · exact hd x h
    · rintro ⟨d, t, heq, hne, hd, hlen, ht⟩
      cases d with
      | nil => exact absurd rfl hne
      | cons d0 d' =>
        simp only [List.cons_append, List.cons.injEq] at heq
        refine ⟨heq.1 ▸ hd d0 (List.mem_cons_self d0 d'), d', t, heq.2, ?_, hlen, ht⟩
        exact fun x hx => hd x (List.mem_cons_of_mem d0 hx)

theorem isLocalChar_at : isLocalChar '@' = false := by decide

theorem matchLocalRest_iff (cs : List Char) :
    matchLocalRest cs = true ↔
      ∃ l r, cs = l ++ '@' :: r ∧ (∀ c ∈ l, isLocalChar c = true) ∧ matchDomain r = true := by
  induction cs with
  | nil =>
    simp only [matchLocalRest, Bool.false_eq_true, false_iff]
    rintro ⟨l, r, heq, -⟩
    exact absurd heq.symm (by simp)
  | cons c cs ih =>
    simp only [matchLocalRest]
    by_cases hc : c = '@'
    · subst hc
      simp only [if_pos rfl]
      constructor
      · intro h
        exact ⟨[], cs, rfl, by simp, h⟩
      · rintro ⟨l, r, heq, hl, hr⟩
        cases l with
        | nil =>
          simp only [List.nil_append, List.cons.injEq] at heq
          exact heq.2 ▸ hr
        | cons l0 l' =>
          simp only [List.cons_append, List.cons.injEq] at heq
          have := hl l0 (List.mem_cons_self l0 l')
          rw [← heq.1] at this
          exact absurd this (by simp [isLocalChar_at])
    · rw [if_neg hc]
      simp only [Bool.and_eq_true]
      constructor
      · rintro ⟨hlc, hrest⟩
        rcases ih.mp hrest with ⟨l, r, heq, hl, hr⟩
        refine ⟨c :: l, r, by rw [heq]; rfl, ?_, hr⟩
        intro x hx
        rcases List.mem_cons.mp hx with h | h
        · exact h ▸ hlc
        · exact hl x h
      · rintro ⟨l, r, heq, hl, hr⟩
        cases l with
        | nil =>
          simp only [List.nil_append, List.cons.injEq] at heq
          exact absurd heq.1 hc
        | cons l0 l' =>
          simp only [List.cons_append, List.cons.injEq] at heq
          refine ⟨heq.1 ▸ hl l0 (List.mem_cons_self l0 l'), ?_⟩
          exact ih.mpr ⟨l', r, heq.2, fun x hx => hl x (List.mem_cons_of_mem l0 hx), hr⟩

/-- The anchored matcher accepts exactly the character lists of the
specification's `local@domain.tld` shape. -/
theorem matchCore_iff (cs : List Char) :
    matchCore cs = true ↔ specEmailForm cs := by
  cases cs with
  | nil =>
    simp only [matchCore, Bool.false_eq_true, false_iff, specEmailForm]
    rintro ⟨l, d, t, heq, -⟩
    exact absurd heq.symm (by simp)
  | cons c cs =>
    simp only [matchCore, Bool.and_eq_true]
    rw [matchLocalRest_iff]
    constructor
    · rintro ⟨hlc, l, r, heq, hl, hr⟩
      rcases (matchDomain_iff r).mp hr with ⟨d, t, hreq, hdne, hd, hlen, ht⟩
      refine ⟨c :: l, d, t, by rw [heq, hreq]; rfl, by simp, ?_, hdne, hd, hlen, ht⟩
      intro x hx
      rcases List.mem_cons.mp hx with h | h
      · exact h ▸ hlc
      · exact hl x h
    · rintro ⟨l, d, t, heq, hlne, hl, hdne, hd, hlen, ht⟩
      cases l with
      | nil => exact absurd rfl hlne
      | cons l0 l' =>
        simp only [List.cons_append, List.cons.injEq] at heq
        refine ⟨heq.1 ▸ hl l0 (List.mem_cons_self l0 l'), l', d ++ '.' :: t, heq.2, ?_, ?_⟩
        · exact fun x hx => hl x (List.mem_cons_of_mem l0 hx)
        · exact (matchDomain_iff _).mpr ⟨d, t, rfl, hdne, hd, hlen, ht⟩

/-- Any list of the specification's email shape ends in a letter. -/
theorem specEmailForm_getLast (cs : List Char) (h : specEmailForm cs) :
    ∃ c, cs.getLast? = some c ∧ c.isAlpha = true := by
  rcases h with ⟨l, d, t, heq, -, -, -, -, hlen, ht⟩
  have htne : t ≠ [] := by
    intro h
    rw [h] at hlen
    simp at hlen
  rcases List.exists_cons_of_ne_nil htne with ⟨t0, t', ht'⟩
  have hrw : cs = (l ++ '@' :: (d ++ ['.'])) ++ t := by
    rw [heq]
    simp
  obtain ⟨c, hc⟩ : ∃ c, t.getLast? = some c := by
    rw [ht']
    exact ⟨(t0 :: t').getLast (by simp), List.getLast?_eq_getLast _ _⟩
  refine ⟨c, ?_, ht c (List.mem_of_mem_getLast? (hc ▸ rfl : c ∈ t.getLast?))⟩
  rw [hrw, List.getLast?_append, hc]
  rfl

theorem specEmailForm_ne_nil : ¬ specEmailForm [] := by
  rintro ⟨l, d, t, heq, -⟩
  simp at heq

/-! ## Claim theorems -/

/-- C7, counterexample: the claim states that every string not exactly of
the form `local@domain.tld` — in particular a string with a trailing
newline after a matching prefix — is rejected.  The validator in fact
accepts `"john@example.com\n"`, because Python's `$` in `re.match` also
matches just before a trailing newline; yet that string is not of the
specification's email shape (its last character is not a letter). -/
theorem claim_C7_counterexample :
    validate_email "john@example.com\n" = true ∧
      ¬ specEmailForm "john@example.com\n".data := by
  refine ⟨by decide, fun h => ?_⟩
  rcases specEmailForm_getLast _ h with ⟨c, hc, halpha⟩
  have hlast : ("john@example.com\n".data.getLast?) = some '\n' := by decide
  rw [hlast] at hc
  injection hc with hc
  subst hc
  exact absurd halpha (by decide)

/-- C7, amended: `validate_email` accepts a string iff the whole string has
the form `local@domain.tld` (local one-or-more of `[A-Za-z0-9._%+-]`,
domain one-or-more of `[A-Za-z0-9.-]`, tld two-or-more ASCII letters), or
the whole string minus exactly one trailing newline has that form.  Every
other string is rejected. -/
theorem claim_C7 (s : String) :
    validate_email s = true ↔
      (specEmailForm s.data ∨ ∃ cs, s.data = cs ++ ['\n'] ∧ specEmailForm cs) := by
  unfold validate_email
  rcases hlast : s.data.getLast? with _ | c
  · have hnil : s.data = [] := List.getLast?_eq_none_iff.mp hlast
    simp only [hnil, List.getLast?_nil]
    constructor
    · intro h
      exact absurd h (by simp)
    · rintro (h | ⟨cs, hcs, -⟩)
      · exact absurd h specEmailForm_ne_nil
      · exact absurd hcs.symm (by simp)
  · dsimp only
    by_cases hc : c = '\n'
    · subst hc
      rw [if_pos rfl, matchCore_iff]
      have hm : '\n' ∈ s.data.getLast? := by rw [Option.mem_def]; exact hlast
      have hsplit : s.data = s.data.dropLast ++ ['\n'] :=
        (List.dropLast_append_getLast? '\n' hm).symm
      constructor
      · intro h
        exact .inr ⟨s.data.dropLast, hsplit, h⟩
      · rintro (h | ⟨cs, hcs, hspec⟩)
        · rcases specEmailForm_getLast _ h with ⟨c', hc', halpha⟩
          rw [hlast] at hc'
          injection hc' with hc'
          subst hc'
          exact absurd halpha (by decide)
        · have hcs' : cs = s.data.dropLast := by rw [hcs, List.dropLast_concat]
          exact hcs' ▸ hspec
    · rw [if_neg hc, matchCore_iff]
      constructor
      · exact fun h => .inl h
      · rintro (h | ⟨cs, hcs, hspec⟩)
        · exact h
        · exfalso
          have h2 : (cs ++ ['\n']).getLast? = some '\n' := List.getLast?_concat cs
          rw [← hcs, hlast] at h2
          injection h2 with h2
          exact hc h2

/-- C1: email uniqueness is an invariant of the store for the validating
variant: the store's `UNIQUE` constraint on the `email` column (part of the
model, `db.Column(..., unique=True, ...)`) aborts any commit that would
produce two rows with the same email, and the handlers roll such a failure
back.  Hence every single operation preserves the invariant, and no
sequence of operations starting from a unique state ever yields two
Accounts with equal email values. -/
theorem claim_C1 :
    (∀ st op, emailsUnique st.rows → emailsUnique (applyOp st op).rows) ∧
      (∀ st ops, emailsUnique st.rows → emailsUnique (runOps st ops).rows) := by
  have hop : ∀ st op, emailsUnique st.rows → emailsUnique (applyOp st op).rows := by
    intro st op h
    cases op with
    | create fault body =>
      simp only [applyOp, SingleFile.create_account]
      split
      · exact h
      · exact h
      · split
        · exact h
        · split
          · exact h
          · split
            · exact h
            · split
              · exact h
              · rename_i hcond
                rw [Bool.or_eq_true, not_or, Bool.not_eq_true, Bool.not_eq_true] at hcond
                exact (hasDupEmail_eq_false_iff _).mp hcond.2
    | update i fault body =>
      simp only [applyOp, SingleFile.update_account]
      split
      · exact h
      · split
        · exact h
        · exact h
        · split
          · exact h
          · rename_i hcond
            rw [Bool.or_eq_true, not_or, Bool.not_eq_true, Bool.not_eq_true] at hcond
            exact (hasDupEmail_eq_false_iff _).mp hcond.2
    | delete i fault =>
      simp only [applyOp, SingleFile.delete_account]
      split
      · exact h
      · split
        · exact h
        · exact emailsUnique_removeRow i h
  refine ⟨hop, ?_⟩
  intro st ops
  induction ops generalizing st with
  | nil => exact fun h => h
  | cons op ops ih => exact fun h => ih (applyOp st op) (hop st op h)

/-- C1 witness: a concrete run (create, update, delete) from a concrete
unique state stays unique. -/
theorem claim_C1_witness :
    emailsUnique (DbState.mk [] 1 5).rows ∧
      emailsUnique (runOps ⟨[], 1, 5⟩
        [Op.create false (some ⟨some (.str "John Doe"), some "john@example.com", none, []⟩),
         Op.update 1 false (some ⟨none, none, some (some "555"), []⟩),
         Op.delete 1 false]).rows :=
  ⟨by decide, claim_C1.2 ⟨[], 1, 5⟩ _ (by decide)⟩

/-- C2, counterexample: with an Account already stored under
`john@example.com`, a create request for that same email whose `name` is
the one-character string `"X"` is answered 400 (the validation layer
rejects the name before the duplicate check runs), not 409 as the claim
states for *any* name. -/
theorem claim_C2_counterexample :
    (SingleFile.create_account ⟨[⟨1, .str "John Doe", "john@example.com", none, 0⟩], 2, 7⟩ false
        (some ⟨some (.str "X"), some "john@example.com", none, []⟩)).1
      = ⟨400, .error "Name must be at least 2 characters long"⟩ ∧
    (SingleFile.create_account ⟨[⟨1, .str "John Doe", "john@example.com", none, 0⟩], 2, 7⟩ false
        (some ⟨some (.str "X"), some "john@example.com", none, []⟩)).1.status ≠ 409 := by
  decide

/-- C2, amended: for every state containing an Account with email `e`, a
create request with that email and a body that passes validation (the
email passes the format check — as every stored email of this variant
does — and the name is a string of at least 2 characters after stripping)
returns 409 `{"error": "Email already exists"}` and leaves the store
exactly unchanged: no row is inserted and no existing row is modified. -/
theorem claim_C2 (st : DbState) (fault : Bool) (p : Payload) (e nm : String)
    (hmail : p.email = some e)
    (hname : p.name = some (.str nm))
    (hlen : 2 ≤ (pyStrip nm).length)
    (hvalid : validate_email e = true)
    (hdup : (st.rows.find? (fun a => a.email == e)).isSome = true) :
    SingleFile.create_account st fault (some p) =
      (⟨409, .error "Email already exists"⟩, st, .clean) := by
  have hempty : p.isEmpty = false := by simp [Payload.isEmpty, hmail]
  have hval : validate_account_data (some p) = .ok := by
    simp only [validate_account_data, hempty, Bool.false_eq_true, if_false, hmail, hvalid,
      Bool.not_true, checkName, hname]
    rw [if_neg (by omega)]
  simp only [SingleFile.create_account, hval, hmail, hname, Option.isNone_some,
    Bool.or_self, Option.getD_some, hdup, if_true, Bool.false_eq_true, if_false]

/-- C2 witness: the amended theorem at a concrete state and request. -/
theorem claim_C2_witness :
    SingleFile.create_account ⟨[⟨1, .str "John Doe", "john@example.com", none, 0⟩], 2, 7⟩ false
        (some ⟨some (.str "Jane"), some "john@example.com", none, []⟩) =
      (⟨409, .error "Email already exists"⟩,
        ⟨[⟨1, .str "John Doe", "john@example.com", none, 0⟩], 2, 7⟩, .clean) :=
  claim_C2 _ _ _ _ _ rfl rfl (by decide) (by decide) (by decide)

/-- C6: a create request whose body carries an email failing the format
check is answered 400 `{"error": "Invalid email format"}` and the store is
left exactly as it was: no row is persisted.  (The validation layer exists
only in the validating variant `src/app.py`, which this theorem is
about.) -/
theorem claim_C6 (st : DbState) (fault : Bool) (p : Payload) (e : String)
    (hmail : p.email = some e)
    (hinvalid : validate_email e = false) :
    SingleFile.create_account st fault (some p) =
      (⟨400, .error "Invalid email format"⟩, st, .clean) := by
  have hempty : p.isEmpty = false := by simp [Payload.isEmpty, hmail]
  have hval : validate_account_data (some p) = .bad "Invalid email format" := by
    simp only [validate_account_data, hempty, Bool.false_eq_true, if_false, hmail, hinvalid,
      Bool.not_false, if_true]
  simp only [SingleFile.create_account, hval]

/-- C6 witness: create with `email="not-an-email"` is rejected with 400 and
the state is unchanged. -/
theorem claim_C6_witness :
    SingleFile.create_account ⟨[], 1, 5⟩ false
        (some ⟨some (.str "John Doe"), some "not-an-email", none, []⟩) =
      (⟨400, .error "Invalid email format"⟩, ⟨[], 1, 5⟩, .clean) :=
  claim_C6 _ _ _ _ rfl (by decide)

/-- C9, counterexample: a create request whose `name` is a number *and*
whose email fails the format check is answered 400 (the email check in
`validate_account_data` runs before the name check reaches `.strip()`),
not 500 as the claim states for every non-string name. -/
theorem claim_C9_counterexample :
    (SingleFile.create_account ⟨[], 1, 5⟩ false
        (some ⟨some (.num 5), some "not-an-email", none, []⟩)).1
      = ⟨400, .error "Invalid email format"⟩ ∧
    (SingleFile.create_account ⟨[], 1, 5⟩ false
        (some ⟨some (.num 5), some "not-an-email", none, []⟩)).1.status ≠ 500 := by
  decide

/-- C9, amended: in the validating variant, a create or update request
whose body maps `name` to a non-string value is answered 500 (internal
error, from the `AttributeError` raised by `.strip()`), not 400, provided
the email in the body — if any — passes the format check (otherwise the
email check raises `BadRequest` first and the response is 400), and, for
update, the target id exists (otherwise the response is 404).  The store
is left unchanged. -/
theorem claim_C9 (st : DbState) (fault : Bool) (p : Payload) (n : Int)
    (hname : p.name = some (.num n))
    (hmailok : p.email = none ∨ ∃ e, p.email = some e ∧ validate_email e = true) :
    ((SingleFile.create_account st fault (some p)).1.status = 500 ∧
      (SingleFile.create_account st fault (some p)).2.1 = st) ∧
    (∀ i a, getRow st.rows i = some a →
      (SingleFile.update_account st i fault (some p)).1.status = 500 ∧
      (SingleFile.update_account st i fault (some p)).2.1 = st) := by
  have hempty : p.isEmpty = false := by simp [Payload.isEmpty, hname]
  have hval : validate_account_data (some p) =
      .crash "'int' object has no attribute 'strip'" := by
    rcases hmailok with h | ⟨e, he, hv⟩
    · simp only [validate_account_data, hempty, Bool.false_eq_true, if_false, h,
        checkName, hname]
    · simp only [validate_account_data, hempty, Bool.false_eq_true, if_false, he, hv,
        Bool.not_true, checkName, hname]
  constructor
  · simp only [SingleFile.create_account, hval]
    exact ⟨by trivial, by trivial⟩
  · intro i a ha
    simp only [SingleFile.update_account, ha, hval]
    exact ⟨by trivial, by trivial⟩

/-- C9 witness: the amended theorem at a concrete state and request with a
numeric name and a well-formed email. -/
theorem claim_C9_witness :
    (((SingleFile.create_account ⟨[⟨1, .str "John Doe", "j@x.co", none, 0⟩], 2, 7⟩ false
        (some ⟨some (.num 7), some "john@example.com", none, []⟩)).1.status = 500 ∧
      (SingleFile.create_account ⟨[⟨1, .str "John Doe", "j@x.co", none, 0⟩], 2, 7⟩ false
        (some ⟨some (.num 7), some "john@example.com", none, []⟩)).2.1
        = ⟨[⟨1, .str "John Doe", "j@x.co", none, 0⟩], 2, 7⟩) ∧
    (∀ i a, getRow (DbState.mk [⟨1, .str "John Doe", "j@x.co", none, 0⟩] 2 7).rows i = some a →
      (SingleFile.update_account ⟨[⟨1, .str "John Doe", "j@x.co", none, 0⟩], 2, 7⟩ i false
        (some ⟨some (.num 7), some "john@example.com", none, []⟩)).1.status = 500 ∧
      (SingleFile.update_account ⟨[⟨1, .str "John Doe", "j@x.co", none, 0⟩], 2, 7⟩ i false
        (some ⟨some (.num 7), some "john@example.com", none, []⟩)).2.1
        = ⟨[⟨1, .str "John Doe", "j@x.co", none, 0⟩], 2, 7⟩)) :=
  claim_C9 ⟨[⟨1, .str "John Doe", "j@x.co", none, 0⟩], 2, 7⟩ false
    ⟨some (.num 7), some "john@example.com", none, []⟩ 7 rfl
    (Or.inr ⟨"john@example.com", rfl, by decide⟩)

/-- C10: a PUT to an id with no stored Account is answered 404
`{"error": "Account not found"}` regardless of the request body (absent,
empty, or any payload), in both variants: both handlers resolve the id and
check existence before the body is parsed or validated.  The store is
unchanged and the session stays clean. -/
theorem claim_C10 (st : DbState) (i : Nat) (fault : Bool) (body : Option Payload)
    (h : getRow st.rows i = none) :
    SingleFile.update_account st i fault body =
      (⟨404, .error "Account not found"⟩, st, .clean) ∧
    Blueprint.update_account st i fault body =
      (⟨404, .error "Account not found"⟩, st, .clean) := by
  constructor
  · simp only [SingleFile.update_account, h]
  · simp only [Blueprint.update_account, h]

/-- C10 witness: the theorem at a concrete state and an absent body. -/
theorem claim_C10_witness :
    SingleFile.update_account ⟨[], 1, 5⟩ 3 false none =
      (⟨404, .error "Account not found"⟩, ⟨[], 1, 5⟩, .clean) ∧
    Blueprint.update_account ⟨[], 1, 5⟩ 3 false none =
      (⟨404, .error "Account not found"⟩, ⟨[], 1, 5⟩, .clean) :=
  claim_C10 ⟨[], 1, 5⟩ 3 false none (by decide)

/-- C3: round-trip.  If a create request succeeds, answering 201 with
Account `A`, then a GET of `A.id` against the resulting store answers 200
with exactly that Account, every field included.  The hypothesis on
`nextId` is the auto-increment invariant of the primary-key column: every
stored id is smaller than the id the store will assign next. -/
theorem claim_C3 (st : DbState) (fault : Bool) (body : Option Payload)
    (A : Account) (st' : DbState) (sc : Session)
    (hids : ∀ r ∈ st.rows, r.id < st.nextId)
    (h : SingleFile.create_account st fault body = (⟨201, .account A⟩, st', sc)) :
    SingleFile.get_account st' A.id = ⟨200, .account A⟩ := by
  simp only [SingleFile.create_account] at h
  split at h
  · simp at h
  · simp at h
  · split at h
    · simp at h
    · split at h
      · simp at h
      · split at h
        · simp at h
        · split at h
          · simp at h
          · simp only [Prod.mk.injEq, Response.mk.injEq, Body.account.injEq] at h
            obtain ⟨⟨-, hA⟩, hst', -⟩ := h
            subst hst'
            have hAid : A.id = st.nextId := by
              rw [← hA]
              rfl
            rw [hA]
            have hnone : st.rows.find? (fun r => r.id == A.id) = none := by
              rw [List.find?_eq_none]
              intro r hr
              have hlt := hids r hr
              simp only [hAid, beq_iff_eq]
              omega
            simp only [SingleFile.get_account, getRow]
            rw [find?_append_of_none hnone]
            simp [List.find?_cons]

/-- C3 witness: create on an empty store, then get the returned id. -/
theorem claim_C3_witness :
    (∀ r ∈ (DbState.mk [] 1 5).rows, r.id < (DbState.mk [] 1 5).nextId) ∧
      SingleFile.get_account
        ⟨[⟨1, .str "John Doe", "john@example.com", some "123-456-7890", 5⟩], 2, 5⟩ 1 =
        ⟨200, .account ⟨1, .str "John Doe", "john@example.com", some "123-456-7890", 5⟩⟩ :=
  ⟨by simp, claim_C3 ⟨[], 1, 5⟩ false
    (some ⟨some (.str "John Doe"), some "john@example.com", some (some "123-456-7890"), []⟩)
    ⟨1, .str "John Doe", "john@example.com", some "123-456-7890", 5⟩
    ⟨[⟨1, .str "John Doe", "john@example.com", some "123-456-7890", 5⟩], 2, 5⟩
    .clean (by simp) (by decide)⟩

/-- Case analysis on the update handler: either it leaves the store
unchanged and does not answer 200, or the id resolves to a row `a` and the
handler answers 200 with `from_dict a` applied, replacing that row. -/
theorem update_shape (st : DbState) (i : Nat) (fault : Bool) (body : Option Payload) :
    ((SingleFile.update_account st i fault body).2.1 = st ∧
      (SingleFile.update_account st i fault body).1.status ≠ 200) ∨
    (∃ a, getRow st.rows i = some a ∧
      SingleFile.update_account st i fault body =
        (⟨200, .account (SingleFile.from_dict a (body.getD {}))⟩,
          ⟨setRow st.rows i (SingleFile.from_dict a (body.getD {})), st.nextId, st.now⟩,
          .clean)) := by
  simp only [SingleFile.update_account]
  split
  · exact .inl ⟨rfl, by simp⟩
  · rename_i a ha
    split
    · exact .inl ⟨rfl, by simp⟩
    · exact .inl ⟨rfl, by simp⟩
    · split
      · exact .inl ⟨rfl, by simp⟩
      · exact .inr ⟨a, ha, rfl⟩

/-- Non-create operations never make a missing id reappear: they only
replace (keeping the id) or remove rows. -/
theorem getRow_applyOp_none {st₀ : DbState} {i : Nat} (op : Op)
    (hnc : Op.isCreate op = false) (h : getRow st₀.rows i = none) :
    getRow (applyOp st₀ op).rows i = none := by
  cases op with
  | create f b => simp [Op.isCreate] at hnc
  | update j f b =>
    rcases update_shape st₀ j f b with ⟨hst, -⟩ | ⟨a, hja, heq⟩
    · simp only [applyOp, hst]
      exact h
    · simp only [applyOp, heq]
      rw [getRow_eq_none_iff] at h ⊢
      intro x hx
      rcases mem_setRow hx with hx | hx
      · exact h x hx
      · rw [hx]
        exact h a (getRow_mem hja)
  | delete j f =>
    simp only [applyOp, SingleFile.delete_account]
    split
    · exact h
    · split
      · exact h
      · rw [getRow_eq_none_iff] at h ⊢
        intro x hx
        exact h x ((removeRow_sublist st₀.rows j).subset hx)

/-- C5: delete finality.  Deleting an existing Account answers 200
`{"message": "Account deleted successfully"}` and removes the row; a GET
of that id against the resulting store answers 404
`{"error": "Account not found"}`; and no subsequent non-create operation
can make a GET of that id succeed again.  The pairwise-distinct-ids
hypothesis is the `PRIMARY KEY` constraint on the `id` column. -/
theorem claim_C5 (st : DbState) (i : Nat) (a : Account)
    (hpk : List.Pairwise (fun x y => x.id ≠ y.id) st.rows)
    (h : getRow st.rows i = some a) :
    SingleFile.delete_account st i false =
      (⟨200, .message "Account deleted successfully"⟩,
        ⟨removeRow st.rows i, st.nextId, st.now⟩, .clean) ∧
    SingleFile.get_account ⟨removeRow st.rows i, st.nextId, st.now⟩ i =
      ⟨404, .error "Account not found"⟩ ∧
    (∀ op st₀, Op.isCreate op = false →
      SingleFile.get_account st₀ i = ⟨404, .error "Account not found"⟩ →
      SingleFile.get_account (applyOp st₀ op) i = ⟨404, .error "Account not found"⟩) := by
  refine ⟨?_, ?_, ?_⟩
  · simp only [SingleFile.delete_account, h, Bool.false_eq_true, if_false]
  · simp only [SingleFile.get_account]
    rw [show getRow (removeRow st.rows i) i = none from getRow_removeRow hpk]
  · intro op st₀ hnc hget
    have hnone : getRow st₀.rows i = none := by
      rcases hb : getRow st₀.rows i with _ | b
      · rfl
      · simp [SingleFile.get_account, hb] at hget
    simp only [SingleFile.get_account, getRow_applyOp_none op hnc hnone]

/-- C5 witness: delete the only row of a concrete store, then get it. -/
theorem claim_C5_witness :
    SingleFile.delete_account ⟨[⟨1, .str "John Doe", "john@example.com", none, 0⟩], 2, 7⟩ 1 false =
      (⟨200, .message "Account deleted successfully"⟩, ⟨[], 2, 7⟩, .clean) ∧
    SingleFile.get_account ⟨[], 2, 7⟩ 1 = ⟨404, .error "Account not found"⟩ ∧
    (∀ op st₀, Op.isCreate op = false →
      SingleFile.get_account st₀ 1 = ⟨404, .error "Account not found"⟩ →
      SingleFile.get_account (applyOp st₀ op) 1 = ⟨404, .error "Account not found"⟩) :=
  claim_C5 ⟨[⟨1, .str "John Doe", "john@example.com", none, 0⟩], 2, 7⟩ 1
    ⟨1, .str "John Doe", "john@example.com", none, 0⟩ (by decide) (by decide)

/-- C8, counterexample: the blueprint variant's create handler
(`src/app/routes.py::create_account`) answers 500 on a store failure at
commit time *without* calling `db.session.rollback()` — its `except` block
only builds the response — so the failed transaction is still pending when
the 500 is emitted, contradicting the claim for "every mutating
operation".  (The committed table itself is unchanged, since the commit
never applied.) -/
theorem claim_C8_counterexample :
    (Blueprint.create_account ⟨[], 1, 5⟩ true
        (some ⟨some (.str "John Doe"), some "john@example.com", none, []⟩)).1.status = 500 ∧
    (Blueprint.create_account ⟨[], 1, 5⟩ true
        (some ⟨some (.str "John Doe"), some "john@example.com", none, []⟩)).2.2
      ≠ .clean := by
  decide

/-- C8, amended: in the validating variant (`src/app.py`) every mutating
handler (create, update, delete) catches a store failure, rolls the
session back before emitting the 500 response, and leaves the persisted
state exactly as it was; the blueprint variant's handlers return 500
without rolling back (the committed state is still unchanged, but the
session keeps the failed transaction pending). -/
theorem claim_C8 (st : DbState) (fault : Bool) (body : Option Payload) (i : Nat) :
    ((SingleFile.create_account st fault body).2.2 = .clean ∧
      ((SingleFile.create_account st fault body).1.status = 500 →
        (SingleFile.create_account st fault body).2.1 = st)) ∧
    ((SingleFile.update_account st i fault body).2.2 = .clean ∧
      ((SingleFile.update_account st i fault body).1.status = 500 →
        (SingleFile.update_account st i fault body).2.1 = st)) ∧
    ((SingleFile.delete_account st i fault).2.2 = .clean ∧
      ((SingleFile.delete_account st i fault).1.status = 500 →
        (SingleFile.delete_account st i fault).2.1 = st)) := by
  refine ⟨⟨?_, ?_⟩, ⟨?_, ?_⟩, ⟨?_, ?_⟩⟩
  · simp only [SingleFile.create_account]
    repeat' split
    all_goals rfl
  · simp only [SingleFile.create_account]
    repeat' split
    all_goals intro h500
    all_goals first
      | rfl
      | (exfalso; simp at h500)
  · simp only [SingleFile.update_account]
    repeat' split
    all_goals rfl
  · simp only [SingleFile.update_account]
    repeat' split
    all_goals intro h500
    all_goals first
      | rfl
      | (exfalso; simp at h500)
  · simp only [SingleFile.delete_account]
    repeat' split
    all_goals rfl
  · simp only [SingleFile.delete_account]
    repeat' split
    all_goals intro h500
    all_goals first
      | rfl
      | (exfalso; simp at h500)

/-- C4: frame property of update (validating variant, plus the
`from_dict` of the blueprint's `src/app/models.py`).  For an existing
Account and any payload: (1) in every outcome, the row stored under the id
keeps its `id` and `date_joined`, and keeps each of `name`, `email`,
`phone` whose key is absent from the payload; (2) when the update answers
200 it has applied exactly `from_dict` — only the present keys, sanitized
— to the fetched row, and only that row; (3) unknown keys do not change
the outcome in any way; (4) a payload carrying only unknown keys still
succeeds with 200 (given no injected fault and a table satisfying the
unique-email constraint); (5) the blueprint variant's `from_dict` likewise
never touches `id` or `date_joined` and keeps fields whose keys are
absent. -/
theorem claim_C4 (st : DbState) (i : Nat) (fault : Bool) (p : Payload) (a : Account)
    (h : getRow st.rows i = some a) :
    (∀ b, getRow (SingleFile.update_account st i fault (some p)).2.1.rows i = some b →
        b.id = a.id ∧ b.date_joined = a.date_joined ∧
        (p.name = none → b.name = a.name) ∧
        (p.email = none → b.email = a.email) ∧
        (p.phone = none → b.phone = a.phone)) ∧
    ((SingleFile.update_account st i fault (some p)).1.status = 200 →
        (SingleFile.update_account st i fault (some p)).1 =
          ⟨200, .account (SingleFile.from_dict a p)⟩ ∧
        (SingleFile.update_account st i fault (some p)).2.1.rows =
          setRow st.rows i (SingleFile.from_dict a p)) ∧
    (∀ ex, (p.name ≠ none ∨ p.email ≠ none ∨ p.phone ≠ none) →
        SingleFile.update_account st i fault (some ⟨p.name, p.email, p.phone, ex⟩) =
          SingleFile.update_account st i fault (some p)) ∧
    ((p.name = none ∧ p.email = none ∧ p.phone = none ∧ p.extra ≠ []) →
        fault = false → hasDupEmail st.rows = false →
        (SingleFile.update_account st i fault (some p)).1.status = 200) ∧
    (∀ (b : Account) (q : Payload),
        (Blueprint.from_dict b q).id = b.id ∧
        (Blueprint.from_dict b q).date_joined = b.date_joined ∧
        (q.name = none → (Blueprint.from_dict b q).name = b.name) ∧
        (q.email = none → (Blueprint.from_dict b q).email = b.email) ∧
        (q.phone = none → (Blueprint.from_dict b q).phone = b.phone)) := by
  have hfid : ∀ q : Payload, (SingleFile.from_dict a q).id = a.id := fun _ => rfl
  refine ⟨?_, ?_, ?_, ?_, ?_⟩
  · intro b hb
    rcases update_shape st i fault (some p) with ⟨hst, -⟩ | ⟨a', ha', heq⟩
    · rw [hst, h] at hb
      injection hb with hb
      subst hb
      exact ⟨rfl, rfl, fun _ => rfl, fun _ => rfl, fun _ => rfl⟩
    · rw [h] at ha'
      injection ha' with ha'
      subst ha'
      rw [heq] at hb
      dsimp only at hb
      rw [getRow_setRow h (by rw [hfid]; exact getRow_id h)] at hb
      injection hb with hb
      subst hb
      refine ⟨rfl, rfl, ?_, ?_, ?_⟩
      · intro hn
        simp [SingleFile.from_dict, hn]
      · intro he
        simp [SingleFile.from_dict, he]
      · intro hp
        simp [SingleFile.from_dict, hp]
  · intro h200
    rcases update_shape st i fault (some p) with ⟨-, hne⟩ | ⟨a', ha', heq⟩
    · exact absurd h200 hne
    · rw [h] at ha'
      injection ha' with ha'
      subst ha'
      rw [heq]
      exact ⟨rfl, rfl⟩
  · intro ex hne
    have h1 : Payload.isEmpty ⟨p.name, p.email, p.phone, ex⟩ = false := by
      rcases hne with hq | hq | hq
      · rcases hv : p.name with _ | v
        · exact absurd hv hq
        · simp [Payload.isEmpty, hv]
      · rcases hv : p.email with _ | v
        · exact absurd hv hq
        · simp [Payload.isEmpty, hv]
      · rcases hv : p.phone with _ | v
        · exact absurd hv hq
        · simp [Payload.isEmpty, hv]
    have h2 : Payload.isEmpty p = false := by
      rcases hne with hq | hq | hq
      · rcases hv : p.name with _ | v
        · exact absurd hv hq
        · simp [Payload.isEmpty, hv]
      · rcases hv : p.email with _ | v
        · exact absurd hv hq
        · simp [Payload.isEmpty, hv]
      · rcases hv : p.phone with _ | v
        · exact absurd hv hq
        · simp [Payload.isEmpty, hv]
    have hv : validate_account_data (some ⟨p.name, p.email, p.phone, ex⟩) =
        validate_account_data (some p) := by
      simp only [validate_account_data, h1, h2, Bool.false_eq_true, if_false]
      rfl
    simp only [SingleFile.update_account, hv]
    rfl
  · rintro ⟨hn, he, hp, hex⟩ hf hdup
    have hempty : p.isEmpty = false := by
      rcases hpe : p.extra with _ | ⟨x, xs⟩
      · exact absurd hpe hex
      · simp [Payload.isEmpty, hpe]
    have hval : validate_account_data (some p) = .ok := by
      simp only [validate_account_data, hempty, Bool.false_eq_true, if_false, he,
        checkName, hn]
    have hfrom : SingleFile.from_dict a p = a := by
      simp [SingleFile.from_dict, hn, he, hp]
    simp only [SingleFile.update_account, h, hval, Option.getD_some, hfrom, hf,
      setRow_self h, hdup, Bool.or_self, Bool.false_eq_true, if_false]
  · intro b q
    refine ⟨rfl, rfl, ?_, ?_, ?_⟩
    · intro hq
      simp [Blueprint.from_dict, hq]
    · intro hq
      simp [Blueprint.from_dict, hq]
    · intro hq
      simp [Blueprint.from_dict, hq]

/-- C4 witness: the frame theorem at the concrete store, id, and payload. -/
theorem claim_C4_witness :
    (∀ b, getRow (SingleFile.update_account wSt 1 false (some wPay)).2.1.rows 1 = some b →
        b.id = wAcct.id ∧ b.date_joined = wAcct.date_joined ∧
        (wPay.name = none → b.name = wAcct.name) ∧
        (wPay.email = none → b.email = wAcct.email) ∧
        (wPay.phone = none → b.phone = wAcct.phone)) ∧
    ((SingleFile.update_account wSt 1 false (some wPay)).1.status = 200 →
        (SingleFile.update_account wSt 1 false (some wPay)).1 =
          ⟨200, .account (SingleFile.from_dict wAcct wPay)⟩ ∧
        (SingleFile.update_account wSt 1 false (some wPay)).2.1.rows =
          setRow wSt.rows 1 (SingleFile.from_dict wAcct wPay)) ∧
    (∀ ex, (wPay.name ≠ none ∨ wPay.email ≠ none ∨ wPay.phone ≠ none) →
        SingleFile.update_account wSt 1 false (some ⟨wPay.name, wPay.email, wPay.phone, ex⟩) =
          SingleFile.update_account wSt 1 false (some wPay)) ∧
    ((wPay.name = none ∧ wPay.email = none ∧ wPay.phone = none ∧ wPay.extra ≠ []) →
        false = false → hasDupEmail wSt.rows = false →
        (SingleFile.update_account wSt 1 false (some wPay)).1.status = 200) ∧
    (∀ (b : Account) (q : Payload),
        (Blueprint.from_dict b q).id = b.id ∧
        (Blueprint.from_dict b q).date_joined = b.date_joined ∧
        (q.name = none → (Blueprint.from_dict b q).name = b.name) ∧
        (q.email = none → (Blueprint.from_dict b q).email = b.email) ∧
        (q.phone = none → (Blueprint.from_dict b q).phone = b.phone)) :=
  claim_C4 wSt 1 false wPay wAcct (by decide)

/-- C7 witness: the amended characterisation at a concrete accepted
string. -/
theorem claim_C7_witness :
    validate_email "john@example.com" = true ↔
      (specEmailForm "john@example.com".data ∨
        ∃ cs, "john@example.com".data = cs ++ ['\n'] ∧ specEmailForm cs) :=
  claim_C7 "john@example.com"

/-- C8 witness: the amended rollback guarantee at a concrete store, an
injected fault, and concrete requests. -/
theorem claim_C8_witness :
    ((SingleFile.create_account ⟨[], 1, 5⟩ true
        (some ⟨some (.str "John Doe"), some "john@example.com", none, []⟩)).2.2 = .clean ∧
      ((SingleFile.create_account ⟨[], 1, 5⟩ true
          (some ⟨some (.str "John Doe"), some "john@example.com", none, []⟩)).1.status = 500 →
        (SingleFile.create_account ⟨[], 1, 5⟩ true
          (some ⟨some (.str "John Doe"), some "john@example.com", none, []⟩)).2.1 = ⟨[], 1, 5⟩)) ∧
    ((SingleFile.update_account ⟨[], 1, 5⟩ 1 true
        (some ⟨some (.str "John Doe"), some "john@example.com", none, []⟩)).2.2 = .clean ∧
      ((SingleFile.update_account ⟨[], 1, 5⟩ 1 true
          (some ⟨some (.str "John Doe"), some "john@example.com", none, []⟩)).1.status = 500 →
        (SingleFile.update_account ⟨[], 1, 5⟩ 1 true
          (some ⟨some (.str "John Doe"), some "john@example.com", none, []⟩)).2.1 = ⟨[], 1, 5⟩)) ∧
    ((SingleFile.delete_account ⟨[], 1, 5⟩ 1 true).2.2 = .clean ∧
      ((SingleFile.delete_account ⟨[], 1, 5⟩ 1 true).1.status = 500 →
        (SingleFile.delete_account ⟨[], 1, 5⟩ 1 true).2.1 = ⟨[], 1, 5⟩)) :=
  claim_C8 ⟨[], 1, 5⟩ true
    (some ⟨some (.str "John Doe"), some "john@example.com", none, []⟩) 1
